import Mathlib

/-!
# The kops adapter of eksctl (`pkg/kops/kops.go`)

A shallow embedding of `Wrapper.isOwned`, `Wrapper.topologyOf` and
`Wrapper.UseVPC`, followed by the properties of these functions.

Modelling conventions.

* Go `*string` fields of the EC2 records are taken as present (the EC2 API
  fills `Key`, `Value`, `VpcId`, `SubnetId` and `AvailabilityZone` of every
  record it returns), so they are `String` fields here.
* EC2 keeps the tag keys of a resource distinct. The loops of `UseVPC` are
  embedded as written, for any tag list; a property that speaks of a resource
  carrying a tag names this condition as `uniqueKeys`.
* The listings of `aws.ListVPCs` and `aws.ListSubnets` wrap `*ec2.Vpc` and
  `*ec2.Subnet` objects; the type assertions of `UseVPC` therefore succeed and
  the listings are lists of `Vpc` and of `Subnet`.
* A run of `UseVPC` is a value of `Run`: how the call ended (a returned error
  value, or a run-time panic), the target configuration it left behind, and
  the listing requests it sent to the cloud provider.
* `logger.Debug` only prints; it is left out.
-/

namespace Kops

/-! ## Data model -/

/-- An `ec2.Tag`: a key and a value attached to a cloud resource. -/
structure Tag where
  key : String
  value : String
deriving DecidableEq, Repr

/-- An `ec2.Vpc`, restricted to the fields `UseVPC` reads. -/
structure Vpc where
  vpcId : String
  tags : List Tag
deriving DecidableEq, Repr

/-- An `ec2.Subnet`, restricted to the fields `UseVPC` and `topologyOf` read. -/
structure Subnet where
  subnetId : String
  vpcId : String
  availabilityZone : String
  tags : List Tag
deriving DecidableEq, Repr

/-- The two values of `api.SubnetTopology` used by the adapter. -/
inductive SubnetTopology where
  | Private
  | Public
deriving DecidableEq, Repr

/-- Go error values as `UseVPC` sees and builds them: an error handed over by a
collaborator, an error built by `fmt.Errorf`, and an error built by
`errors.Wrapf` around a cause. -/
inductive GoError where
  | provider (msg : String)
  | errorf (msg : String)
  | wrapf (cause : GoError) (msg : String)
deriving DecidableEq, Repr

/-- The `Error()` method: `errors.Wrapf` gives the context message, a colon and
a blank, then the message of the cause. -/
def GoError.Error : GoError → String
  | .provider msg => msg
  | .errorf msg => msg
  | .wrapf cause msg => msg ++ ": " ++ cause.Error

/-- The `Cause()` method of a wrapped error: the error it was wrapped around. -/
def GoError.Cause : GoError → Option GoError
  | .wrapf cause _ => some cause
  | _ => none

/-- The cloud handle `awsup.AWSCloud`, as far as the adapter uses it: the
answers of `aws.ListVPCs` and `aws.ListSubnets` for a cluster name. -/
structure AWSCloud where
  ListVPCs : String → Except GoError (List Vpc)
  ListSubnets : String → Except GoError (List Subnet)

/-- A listing request sent to the cloud provider, with the cluster name. -/
inductive CloudCall where
  | ListVPCs (clusterName : String)
  | ListSubnets (clusterName : String)
deriving DecidableEq, Repr

/-- The `Wrapper` struct of `kops.go`. -/
structure Wrapper where
  clusterName : String
  cloud : AWSCloud

/-- A method call received by the target configuration. -/
inductive ConfigCall where
  | ImportSubnet (topology : SubnetTopology) (az : String) (subnetID : String)
  | AppendAvailabilityZone (az : String)
  | HasSufficientSubnets
deriving DecidableEq, Repr

/-- The `VPC` part of the target configuration: the settable `ID`. -/
structure ClusterVPC where
  ID : String
deriving DecidableEq, Repr

/-- Modelled from the spec: `api.ClusterConfig` (package `pkg/eks/api`) is not
part of the sources at hand. The spec gives its interface: a settable `VPC.ID`
and the methods `ImportSubnet(topology, availabilityZone, subnetID)`,
`AppendAvailabilityZone(zone)` and `HasSufficientSubnets() → error`. The
configuration is modelled by what the adapter does to it: the value of
`VPC.ID` and the sequence of method calls received, oldest first. -/
structure ClusterConfig where
  VPC : ClusterVPC
  calls : List ConfigCall
deriving DecidableEq, Repr

/-- Modelled from the spec: `ImportSubnet(topology, availabilityZone,
subnetID)` of the target configuration, recorded as a received call. -/
def ClusterConfig.ImportSubnet (spec : ClusterConfig) (topology : SubnetTopology)
    (az subnetID : String) : ClusterConfig :=
  { spec with calls := spec.calls ++ [ConfigCall.ImportSubnet topology az subnetID] }

/-- Modelled from the spec: `AppendAvailabilityZone(zone)` of the target
configuration, recorded as a received call. -/
def ClusterConfig.AppendAvailabilityZone (spec : ClusterConfig) (az : String) :
    ClusterConfig :=
  { spec with calls := spec.calls ++ [ConfigCall.AppendAvailabilityZone az] }

/-- What lies outside the repository and is taken as given: `quote` is the
`%q` verb of `fmt` on a string, and `HasSufficientSubnets` is the rule of the
target configuration (`none` is Go `nil`). -/
structure Env where
  quote : String → String
  HasSufficientSubnets : ClusterConfig → Option GoError

/-- How a call of `UseVPC` ends: it returns an error value (`none` is `nil`),
or the run-time panics on `vpcs[0]` with an index out of range. -/
inductive Outcome where
  | returned (err : Option GoError)
  | panicked
deriving DecidableEq, Repr

/-- A run of `UseVPC`: outcome, target configuration afterwards, and the
listing requests sent, oldest first. -/
structure Run where
  outcome : Outcome
  spec : ClusterConfig
  cloudCalls : List CloudCall
deriving DecidableEq, Repr

/-! ## The functions of `kops.go` -/

/-- `Wrapper.isOwned` (kops.go:30-32). -/
def Wrapper.isOwned (k : Wrapper) (t : Tag) : Bool :=
  t.key == "kubernetes.io/cluster/" ++ k.clusterName && t.value == "owned"

/-- The loop of `topologyOf` over the tags, with its early return. -/
def topologyOfTags : List Tag → SubnetTopology
  | [] => SubnetTopology.Public
  | t :: ts =>
    if t.key == "SubnetType" && t.value == "Private" then SubnetTopology.Private
    else topologyOfTags ts

/-- `Wrapper.topologyOf` (kops.go:34-41). -/
def Wrapper.topologyOf (_k : Wrapper) (s : Subnet) : SubnetTopology :=
  topologyOfTags s.tags

/-- The VPC loop of `UseVPC` (kops.go:55-63): `vpcs` starts empty and gets the
ID of the VPC appended for every tag of the VPC on which `isOwned` is true. -/
def Wrapper.ownedVPCs (k : Wrapper) (allVPCs : List Vpc) : List String :=
  allVPCs.foldl
    (fun vpcs vpc =>
      vpc.tags.foldl
        (fun vpcs tag => if k.isOwned tag then vpcs ++ [vpc.vpcId] else vpcs)
        vpcs)
    []

/-- The subnet loop of `UseVPC` (kops.go:70-78): for every tag of every subnet,
when the tag is owned and the subnet lies in `spec.VPC.ID`, the subnet is
imported and its zone appended. -/
def Wrapper.importSubnets (k : Wrapper) (allSubnets : List Subnet)
    (spec : ClusterConfig) : ClusterConfig :=
  allSubnets.foldl
    (fun spec subnet =>
      subnet.tags.foldl
        (fun spec tag =>
          if k.isOwned tag && subnet.vpcId == spec.VPC.ID then
            (spec.ImportSubnet (k.topologyOf subnet) subnet.availabilityZone
              subnet.subnetId).AppendAvailabilityZone subnet.availabilityZone
          else spec)
        spec)
    spec

/-- `Wrapper.UseVPC` (kops.go:44-84). -/
def Wrapper.UseVPC (k : Wrapper) (env : Env) (spec : ClusterConfig) : Run :=
  match k.cloud.ListVPCs k.clusterName with
  | .error err => ⟨.returned (some err), spec, [.ListVPCs k.clusterName]⟩
  | .ok allVPCs =>
    match k.cloud.ListSubnets k.clusterName with
    | .error err =>
      ⟨.returned (some err), spec, [.ListVPCs k.clusterName, .ListSubnets k.clusterName]⟩
    | .ok allSubnets =>
      let cloudCalls := [CloudCall.ListVPCs k.clusterName, .ListSubnets k.clusterName]
      let vpcs := k.ownedVPCs allVPCs
      if vpcs.length > 1 then
        ⟨.returned (some (.errorf
          ("more then one VPC found for kops cluster " ++ env.quote k.clusterName))),
          spec, cloudCalls⟩
      else
        match vpcs with
        | [] => ⟨.panicked, spec, cloudCalls⟩
        | id :: _ =>
          let spec := { spec with VPC := { spec.VPC with ID := id } }
          let spec := k.importSubnets allSubnets spec
          let err := env.HasSufficientSubnets spec
          let spec := { spec with calls := spec.calls ++ [ConfigCall.HasSufficientSubnets] }
          match err with
          | some err =>
            ⟨.returned (some (.wrapf err
              ("using VPC from kops cluster " ++ env.quote k.clusterName))), spec, cloudCalls⟩
          | none => ⟨.returned none, spec, cloudCalls⟩

/-! ## Fixtures for concrete runs -/

/-- The `%q` verb on strings that need no escaping: the string between double
quotes. -/
def plainQuote (s : String) : String := "\"" ++ s ++ "\""

/-- A cloud that answers both listings successfully. -/
def cloudOf (vpcs : List Vpc) (subnets : List Subnet) : AWSCloud :=
  ⟨fun _ => .ok vpcs, fun _ => .ok subnets⟩

/-- The tag `kubernetes.io/cluster/prod=owned`. -/
def prodOwned : Tag := ⟨"kubernetes.io/cluster/prod", "owned"⟩

/-- A configuration that has not been touched yet. -/
def emptyConfig : ClusterConfig := ⟨⟨""⟩, []⟩

/-- An environment whose validation always succeeds. -/
def envOk : Env := ⟨plainQuote, fun _ => none⟩

/-- An environment whose validation always fails with one fixed error. -/
def envFail : Env := ⟨plainQuote, fun _ => some (.provider "insufficient subnets")⟩

/-! ## Derived notions used to state the properties -/

/-- The number of tags satisfying `isOwned`, summed over the listed VPCs. -/
def ownedTagCount (k : Wrapper) (vpcs : List Vpc) : Nat :=
  (vpcs.map (fun v => v.tags.countP k.isOwned)).sum

/-- The listed VPCs that carry a tag on which `isOwned` is true. -/
def ownedVpcList (k : Wrapper) (vpcs : List Vpc) : List Vpc :=
  vpcs.filter (fun v => v.tags.any k.isOwned)

/-- The two calls the subnet loop makes for one owned tag of a subnet. -/
def subnetCalls (k : Wrapper) (s : Subnet) : List ConfigCall :=
  [ConfigCall.ImportSubnet (k.topologyOf s) s.availabilityZone s.subnetId,
   ConfigCall.AppendAvailabilityZone s.availabilityZone]

/-- The calls the subnet loop makes for the listed subnets when the chosen VPC
is `id`: for each subnet of that VPC, `subnetCalls` once per owned tag. -/
def loopCalls (k : Wrapper) (id : String) (subnets : List Subnet) : List ConfigCall :=
  subnets.flatMap (fun s =>
    if s.vpcId == id then (List.replicate (s.tags.countP k.isOwned) (subnetCalls k s)).flatten
    else [])

/-- The `ImportSubnet` calls among a sequence of calls. -/
def importCalls (calls : List ConfigCall) : List ConfigCall :=
  calls.filter (fun c => match c with
    | .ImportSubnet _ _ _ => true
    | _ => false)

/-- The zones passed to `AppendAvailabilityZone` in a sequence of calls. -/
def appendedZones (calls : List ConfigCall) : List String :=
  calls.filterMap (fun c => match c with
    | .AppendAvailabilityZone az => some az
    | _ => none)

/-- The zones passed to `ImportSubnet` in a sequence of calls. -/
def importedZones (calls : List ConfigCall) : List String :=
  calls.filterMap (fun c => match c with
    | .ImportSubnet _ az _ => some az
    | _ => none)

/-- The configuration `UseVPC` hands to `HasSufficientSubnets` when the chosen
VPC is `id`. -/
def importedConfig (k : Wrapper) (id : String) (subnets : List Subnet)
    (spec : ClusterConfig) : ClusterConfig :=
  ⟨⟨id⟩, spec.calls ++ loopCalls k id subnets⟩

/-! ## Lemmas on the two loops -/

theorem foldl_owned_tags (k : Wrapper) (id : String) (tags : List Tag) (acc : List String) :
    tags.foldl (fun vpcs tag => if k.isOwned tag then vpcs ++ [id] else vpcs) acc
      = acc ++ List.replicate (tags.countP k.isOwned) id := by
  induction tags generalizing acc with
  | nil => simp
  | cons t ts ih =>
    rw [List.foldl_cons, ih, List.countP_cons]
    by_cases h : k.isOwned t = true
    · simp [h, List.replicate_succ]
    · simp [h]

theorem foldl_owned_vpcs (k : Wrapper) (vs : List Vpc) (acc : List String) :
    vs.foldl
      (fun vpcs vpc =>
        vpc.tags.foldl
          (fun vpcs tag => if k.isOwned tag then vpcs ++ [vpc.vpcId] else vpcs)
          vpcs)
      acc
      = acc ++ vs.flatMap (fun v => List.replicate (v.tags.countP k.isOwned) v.vpcId) := by
  induction vs generalizing acc with
  | nil => simp
  | cons v vs ih =>
    rw [List.foldl_cons, ih, foldl_owned_tags]
    simp [List.flatMap_cons]

theorem ownedVPCs_eq (k : Wrapper) (vs : List Vpc) :
    k.ownedVPCs vs
      = vs.flatMap (fun v => List.replicate (v.tags.countP k.isOwned) v.vpcId) := by
  unfold Wrapper.ownedVPCs
  rw [foldl_owned_vpcs]
  simp

theorem length_ownedVPCs (k : Wrapper) (vs : List Vpc) :
    (k.ownedVPCs vs).length = ownedTagCount k vs := by
  rw [ownedVPCs_eq]
  unfold ownedTagCount
  induction vs with
  | nil => simp
  | cons v vs ih => simp [List.flatMap_cons, ih]

theorem foldl_import_tags (k : Wrapper) (s : Subnet) (tags : List Tag)
    (spec : ClusterConfig) :
    tags.foldl
      (fun spec tag =>
        if k.isOwned tag && s.vpcId == spec.VPC.ID then
          (spec.ImportSubnet (k.topologyOf s) s.availabilityZone
            s.subnetId).AppendAvailabilityZone s.availabilityZone
        else spec)
      spec
      = ⟨spec.VPC, spec.calls ++
          (if s.vpcId == spec.VPC.ID then
            (List.replicate (tags.countP k.isOwned) (subnetCalls k s)).flatten
          else [])⟩ := by
  induction tags generalizing spec with
  | nil => simp
  | cons t ts ih =>
    rw [List.foldl_cons, ih]
    by_cases h1 : k.isOwned t = true <;> by_cases h2 : (s.vpcId == spec.VPC.ID) = true
    all_goals
      simp [h1, h2, ClusterConfig.ImportSubnet, ClusterConfig.AppendAvailabilityZone,
        List.countP_cons, List.replicate_succ, subnetCalls]

theorem foldl_import_subnets (k : Wrapper) (subnets : List Subnet) (spec : ClusterConfig) :
    subnets.foldl
      (fun spec subnet =>
        subnet.tags.foldl
          (fun spec tag =>
            if k.isOwned tag && subnet.vpcId == spec.VPC.ID then
              (spec.ImportSubnet (k.topologyOf subnet) subnet.availabilityZone
                subnet.subnetId).AppendAvailabilityZone subnet.availabilityZone
            else spec)
          spec)
      spec
      = ⟨spec.VPC, spec.calls ++ loopCalls k spec.VPC.ID subnets⟩ := by
  induction subnets generalizing spec with
  | nil => simp [loopCalls]
  | cons s ss ih =>
    rw [List.foldl_cons, ih, foldl_import_tags]
    simp [loopCalls, List.flatMap_cons]

theorem importSubnets_eq (k : Wrapper) (subnets : List Subnet) (spec : ClusterConfig) :
    k.importSubnets subnets spec
      = ⟨spec.VPC, spec.calls ++ loopCalls k spec.VPC.ID subnets⟩ := by
  unfold Wrapper.importSubnets
  exact foldl_import_subnets k subnets spec

/-! ## Lemmas on `UseVPC`, by the branch taken -/

theorem useVPC_listVPCs_error (k : Wrapper) (env : Env) (spec : ClusterConfig) (e : GoError)
    (hv : k.cloud.ListVPCs k.clusterName = .error e) :
    k.UseVPC env spec = ⟨.returned (some e), spec, [.ListVPCs k.clusterName]⟩ := by
  unfold Wrapper.UseVPC
  rw [hv]

theorem useVPC_listSubnets_error (k : Wrapper) (env : Env) (spec : ClusterConfig)
    (vpcs : List Vpc) (e : GoError)
    (hv : k.cloud.ListVPCs k.clusterName = .ok vpcs)
    (hs : k.cloud.ListSubnets k.clusterName = .error e) :
    k.UseVPC env spec
      = ⟨.returned (some e), spec,
          [.ListVPCs k.clusterName, .ListSubnets k.clusterName]⟩ := by
  unfold Wrapper.UseVPC
  rw [hv]
  simp only
  rw [hs]

theorem useVPC_many (k : Wrapper) (env : Env) (spec : ClusterConfig)
    (vpcs : List Vpc) (subnets : List Subnet)
    (hv : k.cloud.ListVPCs k.clusterName = .ok vpcs)
    (hs : k.cloud.ListSubnets k.clusterName = .ok subnets)
    (hc : 1 < ownedTagCount k vpcs) :
    k.UseVPC env spec
      = ⟨.returned (some (.errorf
          ("more then one VPC found for kops cluster " ++ env.quote k.clusterName))),
          spec, [.ListVPCs k.clusterName, .ListSubnets k.clusterName]⟩ := by
  unfold Wrapper.UseVPC
  rw [hv]
  simp only
  rw [hs]
  simp only [length_ownedVPCs]
  rw [if_pos hc]

theorem useVPC_none (k : Wrapper) (env : Env) (spec : ClusterConfig)
    (vpcs : List Vpc) (subnets : List Subnet)
    (hv : k.cloud.ListVPCs k.clusterName = .ok vpcs)
    (hs : k.cloud.ListSubnets k.clusterName = .ok subnets)
    (hc : ownedTagCount k vpcs = 0) :
    k.UseVPC env spec
      = ⟨.panicked, spec, [.ListVPCs k.clusterName, .ListSubnets k.clusterName]⟩ := by
  have hnil : k.ownedVPCs vpcs = [] := by
    apply List.eq_nil_of_length_eq_zero
    rw [length_ownedVPCs, hc]
  unfold Wrapper.UseVPC
  rw [hv]
  simp only
  rw [hs]
  simp [hnil]

theorem ownedVPCs_of_count_one (k : Wrapper) (vpcs : List Vpc)
    (hc : ownedTagCount k vpcs = 1) : ∃ id, k.ownedVPCs vpcs = [id] := by
  have hl : (k.ownedVPCs vpcs).length = 1 := by rw [length_ownedVPCs, hc]
  exact List.length_eq_one.mp hl

theorem useVPC_one (k : Wrapper) (env : Env) (spec : ClusterConfig)
    (vpcs : List Vpc) (subnets : List Subnet) (id : String)
    (hv : k.cloud.ListVPCs k.clusterName = .ok vpcs)
    (hs : k.cloud.ListSubnets k.clusterName = .ok subnets)
    (hid : k.ownedVPCs vpcs = [id]) :
    k.UseVPC env spec
      = ⟨.returned
          ((env.HasSufficientSubnets (importedConfig k id subnets spec)).map
            (fun e => GoError.wrapf e
              ("using VPC from kops cluster " ++ env.quote k.clusterName))),
          ⟨⟨id⟩, spec.calls ++ loopCalls k id subnets ++ [ConfigCall.HasSufficientSubnets]⟩,
          [.ListVPCs k.clusterName, .ListSubnets k.clusterName]⟩ := by
  unfold Wrapper.UseVPC
  rw [hv]
  simp only
  rw [hs]
  simp only [hid, importSubnets_eq, importedConfig]
  cases h : env.HasSufficientSubnets ⟨⟨id⟩, spec.calls ++ loopCalls k id subnets⟩ <;> simp [h]

/-! ## Lemmas linking the tag count to the listed VPCs -/

theorem ownedVPCs_of_mem (k : Wrapper) (vpcs : List Vpc) (v : Vpc)
    (hmem : v ∈ vpcs) (hown : ∃ t ∈ v.tags, k.isOwned t = true)
    (hc : ownedTagCount k vpcs = 1) : k.ownedVPCs vpcs = [v.vpcId] := by
  obtain ⟨id, hid⟩ := ownedVPCs_of_count_one k vpcs hc
  have hin : v.vpcId ∈ k.ownedVPCs vpcs := by
    rw [ownedVPCs_eq, List.mem_flatMap]
    refine ⟨v, hmem, ?_⟩
    rw [List.mem_replicate]
    refine ⟨?_, rfl⟩
    have hpos : 0 < v.tags.countP k.isOwned := List.countP_pos_iff.mpr hown
    omega
  rw [hid] at hin
  rw [hid, List.mem_singleton.mp hin]

theorem length_ownedVpcList_le (k : Wrapper) (vpcs : List Vpc) :
    (ownedVpcList k vpcs).length ≤ ownedTagCount k vpcs := by
  unfold ownedVpcList ownedTagCount
  induction vpcs with
  | nil => simp
  | cons v vs ih =>
    by_cases h : v.tags.any k.isOwned = true
    · have hpos : 0 < v.tags.countP k.isOwned := by
        rw [List.countP_pos_iff]
        simpa using h
      simp only [List.filter_cons, h, if_true, List.length_cons, List.map_cons, List.sum_cons]
      omega
    · simp only [List.filter_cons, h, List.map_cons, List.sum_cons]
      simp only [Bool.false_eq_true, if_false]
      omega

/-! ## Lemmas on the calls of the subnet loop -/

/-- The subnets the loop imports when the chosen VPC is `id`, in listing order,
each as many times as it carries an owned tag. -/
def importedSubnets (k : Wrapper) (id : String) (subnets : List Subnet) : List Subnet :=
  subnets.flatMap (fun s =>
    if s.vpcId == id then List.replicate (s.tags.countP k.isOwned) s else [])

theorem flatten_replicate_eq_flatMap {α β : Type} (n : Nat) (a : α) (f : α → List β) :
    (List.replicate n (f a)).flatten = (List.replicate n a).flatMap f := by
  induction n with
  | zero => simp
  | succ n ih => simp [List.replicate_succ, List.flatMap_cons, ih]

theorem loopCalls_eq_flatMap (k : Wrapper) (id : String) (subnets : List Subnet) :
    loopCalls k id subnets = (importedSubnets k id subnets).flatMap (subnetCalls k) := by
  unfold loopCalls importedSubnets
  rw [List.flatMap_assoc]
  congr 1
  funext s
  by_cases h : (s.vpcId == id) = true
  · simp only [h, if_true]
    exact flatten_replicate_eq_flatMap _ s (subnetCalls k)
  · simp [h]

theorem importCalls_append (a b : List ConfigCall) :
    importCalls (a ++ b) = importCalls a ++ importCalls b := by
  simp [importCalls]

theorem importCalls_flatMap_subnetCalls (k : Wrapper) (l : List Subnet) :
    importCalls (l.flatMap (subnetCalls k))
      = l.map (fun s =>
          ConfigCall.ImportSubnet (k.topologyOf s) s.availabilityZone s.subnetId) := by
  induction l with
  | nil => simp [importCalls]
  | cons s ss ih =>
    rw [List.flatMap_cons, importCalls_append, ih]
    simp [importCalls, subnetCalls]

theorem appendedZones_flatMap_subnetCalls (k : Wrapper) (l : List Subnet) :
    appendedZones (l.flatMap (subnetCalls k)) = l.map (fun s => s.availabilityZone) := by
  induction l with
  | nil => simp [appendedZones]
  | cons s ss ih =>
    have happ : ∀ a b, appendedZones (a ++ b) = appendedZones a ++ appendedZones b := by
      intro a b
      simp [appendedZones]
    rw [List.flatMap_cons, happ, ih]
    simp [appendedZones, subnetCalls]

theorem importedZones_flatMap_subnetCalls (k : Wrapper) (l : List Subnet) :
    importedZones (l.flatMap (subnetCalls k)) = l.map (fun s => s.availabilityZone) := by
  induction l with
  | nil => simp [importedZones]
  | cons s ss ih =>
    have happ : ∀ a b, importedZones (a ++ b) = importedZones a ++ importedZones b := by
      intro a b
      simp [importedZones]
    rw [List.flatMap_cons, happ, ih]
    simp [importedZones, subnetCalls]

theorem hasSufficientSubnets_not_mem_loopCalls (k : Wrapper) (id : String)
    (subnets : List Subnet) : ConfigCall.HasSufficientSubnets ∉ loopCalls k id subnets := by
  rw [loopCalls_eq_flatMap, List.mem_flatMap]
  rintro ⟨s, _, hs⟩
  simp [subnetCalls] at hs

theorem importedSubnets_of_single_tags (k : Wrapper) (id : String) (subnets : List Subnet)
    (hone : ∀ s ∈ subnets, s.tags.countP k.isOwned ≤ 1) :
    importedSubnets k id subnets
      = subnets.filter (fun s => s.tags.any k.isOwned && s.vpcId == id) := by
  unfold importedSubnets
  induction subnets with
  | nil => simp
  | cons s ss ih =>
    have hs : s.tags.countP k.isOwned ≤ 1 := hone s (List.mem_cons_self _ _)
    have ih2 := ih (fun x hx => hone x (List.mem_cons_of_mem _ hx))
    rw [List.flatMap_cons, ih2, List.filter_cons]
    by_cases hany : s.tags.any k.isOwned = true
    · have hpos : 0 < s.tags.countP k.isOwned := by
        rw [List.countP_pos_iff]
        simpa using hany
      have h1 : s.tags.countP k.isOwned = 1 := by omega
      by_cases hid : (s.vpcId == id) = true
      · simp [hany, hid, h1]
      · simp [hid]
    · have h0 : s.tags.countP k.isOwned = 0 := by
        rw [List.countP_eq_zero]
        simpa using hany
      simp [hany, h0]

/-- The string `s` contains the string `t`. -/
def containsStr (s t : String) : Prop := ∃ a b : String, s = a ++ t ++ b

theorem string_append_right_cancel (p a b : String) (h : p ++ a = p ++ b) : a = b := by
  apply String.ext
  have hd := congrArg String.data h
  simp only [String.data_append] at hd
  exact (List.append_right_inj _).mp hd

theorem string_append_eq_self (a x : String) (h : a ++ x = a) : x = "" := by
  apply String.ext
  have hd := congrArg String.data h
  simp only [String.data_append] at hd
  have hl := congrArg List.length hd
  simp only [List.length_append] at hl
  have : x.data.length = 0 := by omega
  exact List.eq_nil_of_length_eq_zero this

/-! ## Properties of `isOwned` and `topologyOf` -/

/-- C4: `isOwned` is true exactly when the key is `kubernetes.io/cluster/`
followed by the cluster name of the wrapper and the value is `owned`. Hence a
key for another cluster name, a key that extends the name to the right or to
the left by a non-empty string, and any value other than `owned` (such as
`shared`) all give false. -/
theorem C4_isOwned_iff (k : Wrapper) (t : Tag) :
    (k.isOwned t = true ↔
      t.key = "kubernetes.io/cluster/" ++ k.clusterName ∧ t.value = "owned") ∧
    (∀ n : String, n ≠ k.clusterName →
      k.isOwned ⟨"kubernetes.io/cluster/" ++ n, t.value⟩ = false) ∧
    (∀ x : String, x ≠ "" →
      k.isOwned ⟨"kubernetes.io/cluster/" ++ (k.clusterName ++ x), t.value⟩ = false ∧
      k.isOwned ⟨"kubernetes.io/cluster/" ++ (x ++ k.clusterName), t.value⟩ = false) ∧
    (t.value ≠ "owned" → k.isOwned t = false) ∧
    k.isOwned ⟨t.key, "shared"⟩ = false := by
  have hiff : ∀ u : Tag, k.isOwned u = true ↔
      u.key = "kubernetes.io/cluster/" ++ k.clusterName ∧ u.value = "owned" := by
    intro u
    simp [Wrapper.isOwned]
  have hfalse : ∀ u : Tag,
      ¬ (u.key = "kubernetes.io/cluster/" ++ k.clusterName ∧ u.value = "owned") →
      k.isOwned u = false := by
    intro u hu
    cases h : k.isOwned u
    · rfl
    · exact absurd ((hiff u).mp h) hu
  refine ⟨hiff t, ?_, ?_, ?_, ?_⟩
  · intro n hn
    apply hfalse
    rintro ⟨hk, -⟩
    exact hn (string_append_right_cancel _ _ _ hk)
  · intro x hx
    constructor
    · apply hfalse
      rintro ⟨hk, -⟩
      have h1 := string_append_right_cancel _ _ _ hk
      exact hx (string_append_eq_self _ _ h1)
    · apply hfalse
      rintro ⟨hk, -⟩
      have h1 := string_append_right_cancel _ _ _ hk
      have hd := congrArg String.data h1
      simp only [String.data_append] at hd
      have hl := congrArg List.length hd
      simp only [List.length_append] at hl
      have h0 : x.data.length = 0 := by omega
      exact hx (String.ext (List.eq_nil_of_length_eq_zero h0))
  · intro hv
    apply hfalse
    rintro ⟨-, hv2⟩
    exact hv hv2
  · apply hfalse
    rintro ⟨-, hv2⟩
    have hne : ("shared" : String) ≠ "owned" := by decide
    exact hne hv2

/-- C4, at the cluster `prod`: the tag of cluster `prod` is not owned by the
wrapper of cluster `pro`, nor the other way round, and a `shared` value is not
owned. -/
theorem C4_isOwned_iff_witness :
    (Wrapper.mk "prod" (cloudOf [] [])).isOwned ⟨"kubernetes.io/cluster/prod", "owned"⟩ = true ∧
    (Wrapper.mk "prod" (cloudOf [] [])).isOwned ⟨"kubernetes.io/cluster/pro", "owned"⟩ = false ∧
    (Wrapper.mk "prod" (cloudOf [] [])).isOwned ⟨"kubernetes.io/cluster/" ++ ("prod" ++ "uction"), "owned"⟩ = false ∧
    (Wrapper.mk "prod" (cloudOf [] [])).isOwned ⟨"kubernetes.io/cluster/prod", "shared"⟩ = false :=
  ⟨by decide,
   (C4_isOwned_iff (Wrapper.mk "prod" (cloudOf [] [])) ⟨"k", "owned"⟩).2.1 "pro" (by decide),
   ((C4_isOwned_iff (Wrapper.mk "prod" (cloudOf [] [])) ⟨"k", "owned"⟩).2.2.1 "uction"
      (by decide)).1,
   (C4_isOwned_iff (Wrapper.mk "prod" (cloudOf [] []))
      ⟨"kubernetes.io/cluster/prod", "shared"⟩).2.2.2.1 (by decide)⟩

theorem topologyOfTags_private_iff (tags : List Tag) :
    topologyOfTags tags = SubnetTopology.Private ↔
      ∃ t ∈ tags, t.key = "SubnetType" ∧ t.value = "Private" := by
  induction tags with
  | nil => simp [topologyOfTags]
  | cons t ts ih =>
    unfold topologyOfTags
    by_cases h : (t.key == "SubnetType" && t.value == "Private") = true
    · rw [if_pos h]
      simp only [Bool.and_eq_true, beq_iff_eq] at h
      simp [h]
    · rw [if_neg h, ih]
      simp only [Bool.and_eq_true, beq_iff_eq] at h
      simp [h]

theorem topologyOfTags_public_iff (tags : List Tag) :
    topologyOfTags tags = SubnetTopology.Public ↔
      ¬ ∃ t ∈ tags, t.key = "SubnetType" ∧ t.value = "Private" := by
  rw [← topologyOfTags_private_iff]
  cases topologyOfTags tags <;> simp

/-- C5: `topologyOf` returns Private exactly when some tag of the subnet has
key `SubnetType` and value `Private`, and Public otherwise. So a subnet without
tags, and a subnet none of whose tags is `SubnetType=Private` (whatever else
they are: `SubnetType=Public`, `SubnetType=Utility`, `Private` under another
key) are Public; a `SubnetType=Private` tag at any position gives Private; and
reordering the tags does not change the result. -/
theorem C5_topologyOf_iff (k : Wrapper) (s : Subnet) :
    (k.topologyOf s = SubnetTopology.Private ↔
      ∃ t ∈ s.tags, t.key = "SubnetType" ∧ t.value = "Private") ∧
    (k.topologyOf s = SubnetTopology.Public ↔
      ¬ ∃ t ∈ s.tags, t.key = "SubnetType" ∧ t.value = "Private") ∧
    k.topologyOf ⟨s.subnetId, s.vpcId, s.availabilityZone, []⟩ = SubnetTopology.Public ∧
    ((∀ t ∈ s.tags, t.key ≠ "SubnetType" ∨ t.value ≠ "Private") →
      k.topologyOf s = SubnetTopology.Public) ∧
    (∀ (before after : List Tag),
      k.topologyOf ⟨s.subnetId, s.vpcId, s.availabilityZone,
        before ++ [⟨"SubnetType", "Private"⟩] ++ after⟩ = SubnetTopology.Private) ∧
    (∀ s2 : Subnet, s.tags.Perm s2.tags → k.topologyOf s2 = k.topologyOf s) := by
  refine ⟨topologyOfTags_private_iff s.tags, topologyOfTags_public_iff s.tags, rfl, ?_, ?_, ?_⟩
  · intro h
    apply (topologyOfTags_public_iff s.tags).mpr
    rintro ⟨t, ht, hk, hv⟩
    cases h t ht with
    | inl h1 => exact h1 hk
    | inr h2 => exact h2 hv
  · intro before after
    apply (topologyOfTags_private_iff _).mpr
    exact ⟨⟨"SubnetType", "Private"⟩, by simp, rfl, rfl⟩
  · intro s2 hperm
    have hex : (∃ t ∈ s.tags, t.key = "SubnetType" ∧ t.value = "Private") ↔
        (∃ t ∈ s2.tags, t.key = "SubnetType" ∧ t.value = "Private") := by
      constructor
      · rintro ⟨t, ht, h⟩
        exact ⟨t, hperm.mem_iff.mp ht, h⟩
      · rintro ⟨t, ht, h⟩
        exact ⟨t, hperm.mem_iff.mpr ht, h⟩
    unfold Wrapper.topologyOf
    cases h1 : topologyOfTags s.tags
    · exact (topologyOfTags_private_iff _).mpr
        (hex.mp ((topologyOfTags_private_iff _).mp h1))
    · apply (topologyOfTags_public_iff _).mpr
      intro h2
      exact (topologyOfTags_public_iff _).mp h1 (hex.mpr h2)

/-- C5, on concrete subnets: `SubnetType=Public`, `SubnetType=Utility` and
`Private` under another key give Public, and the two orders of a tag list with
`SubnetType=Private` give the same result, Private. -/
theorem C5_topologyOf_iff_witness :
    (Wrapper.mk "prod" (cloudOf [] [])).topologyOf
      ⟨"s-1", "vpc-1", "us-west-2a",
        [⟨"SubnetType", "Public"⟩, ⟨"SubnetType", "Utility"⟩, ⟨"Name", "Private"⟩]⟩
      = SubnetTopology.Public ∧
    (Wrapper.mk "prod" (cloudOf [] [])).topologyOf
      ⟨"s-1", "vpc-1", "us-west-2a", [⟨"SubnetType", "Private"⟩, ⟨"Name", "x"⟩]⟩
      = (Wrapper.mk "prod" (cloudOf [] [])).topologyOf
          ⟨"s-1", "vpc-1", "us-west-2a", [⟨"Name", "x"⟩, ⟨"SubnetType", "Private"⟩]⟩ :=
  ⟨(C5_topologyOf_iff (Wrapper.mk "prod" (cloudOf [] []))
      ⟨"s-1", "vpc-1", "us-west-2a",
        [⟨"SubnetType", "Public"⟩, ⟨"SubnetType", "Utility"⟩, ⟨"Name", "Private"⟩]⟩).2.2.2.1
      (by decide),
   (C5_topologyOf_iff (Wrapper.mk "prod" (cloudOf [] []))
      ⟨"s-1", "vpc-1", "us-west-2a", [⟨"Name", "x"⟩, ⟨"SubnetType", "Private"⟩]⟩).2.2.2.2.2
      ⟨"s-1", "vpc-1", "us-west-2a", [⟨"SubnetType", "Private"⟩, ⟨"Name", "x"⟩]⟩
      (List.Perm.swap _ _ _)⟩

/-! ## Properties of `UseVPC` -/

/-- The wrapper of cluster `prod` over a cloud with the given listings. -/
def prodWrapper (vpcs : List Vpc) (subnets : List Subnet) : Wrapper :=
  ⟨"prod", cloudOf vpcs subnets⟩

/-- The tag keys of a resource are distinct, as EC2 keeps them. -/
def uniqueKeys (tags : List Tag) : Prop := (tags.map (fun t => t.key)).Nodup

theorem countP_isOwned_le_one (k : Wrapper) (tags : List Tag) (h : uniqueKeys tags) :
    tags.countP k.isOwned ≤ 1 := by
  unfold uniqueKeys at h
  induction tags with
  | nil => simp
  | cons t ts ih =>
    rw [List.map_cons, List.nodup_cons] at h
    have ih2 := ih h.2
    rw [List.countP_cons]
    by_cases ht : k.isOwned t = true
    · have hzero : ts.countP k.isOwned = 0 := by
        rw [List.countP_eq_zero]
        intro u hu hown
        apply h.1
        rw [List.mem_map]
        refine ⟨u, hu, ?_⟩
        simp only [Wrapper.isOwned, Bool.and_eq_true, beq_iff_eq] at ht hown
        rw [hown.1, ht.1]
      rw [hzero]
      simp [ht]
    · simp only [ht, Bool.false_eq_true, if_false]
      omega

theorem ownedTagCount_eq_length (k : Wrapper) (vpcs : List Vpc)
    (h : ∀ x ∈ vpcs, x.tags.countP k.isOwned ≤ 1) :
    ownedTagCount k vpcs = (ownedVpcList k vpcs).length := by
  unfold ownedTagCount ownedVpcList
  induction vpcs with
  | nil => simp
  | cons v vs ih =>
    have hv : v.tags.countP k.isOwned ≤ 1 := h v (List.mem_cons_self _ _)
    have ih2 := ih (fun x hx => h x (List.mem_cons_of_mem _ hx))
    rw [List.map_cons, List.sum_cons, ih2, List.filter_cons]
    by_cases hany : v.tags.any k.isOwned = true
    · have hpos : 0 < v.tags.countP k.isOwned := by
        rw [List.countP_pos_iff]
        simpa using hany
      rw [if_pos hany, List.length_cons]
      omega
    · have h0 : v.tags.countP k.isOwned = 0 := by
        rw [List.countP_eq_zero]
        simpa using hany
      rw [if_neg hany, h0]
      omega

/-- C1: when both listings succeed, the tag keys of every listed resource are
distinct, and exactly one listed VPC, `v`, carries the owned tag of the
cluster, `UseVPC` sets `VPC.ID` to the ID of `v`, and the `ImportSubnet` calls
of the run are, in listing order, exactly one call for each listed subnet that
carries the owned tag and whose `VpcId` is that ID, with arguments
(`topologyOf` the subnet, its zone, its ID): no call comes from a subnet
without the owned tag or in another VPC. -/
theorem C1_useVPC_single_owned_vpc (k : Wrapper) (env : Env) (spec : ClusterConfig)
    (vpcs : List Vpc) (subnets : List Subnet) (v : Vpc)
    (hv : k.cloud.ListVPCs k.clusterName = .ok vpcs)
    (hs : k.cloud.ListSubnets k.clusterName = .ok subnets)
    (hvk : ∀ x ∈ vpcs, uniqueKeys x.tags)
    (hsk : ∀ s ∈ subnets, uniqueKeys s.tags)
    (hone : ownedVpcList k vpcs = [v]) :
    (k.UseVPC env spec).spec.VPC.ID = v.vpcId ∧
    importCalls ((k.UseVPC env spec).spec.calls.drop spec.calls.length)
      = (subnets.filter (fun s => s.tags.any k.isOwned && s.vpcId == v.vpcId)).map
          (fun s =>
            ConfigCall.ImportSubnet (k.topologyOf s) s.availabilityZone s.subnetId) := by
  have hcount : ownedTagCount k vpcs = 1 := by
    rw [ownedTagCount_eq_length k vpcs
      (fun x hx => countP_isOwned_le_one k x.tags (hvk x hx)), hone]
    rfl
  have hin : v ∈ ownedVpcList k vpcs := by
    rw [hone]
    exact List.mem_singleton.mpr rfl
  unfold ownedVpcList at hin
  rw [List.mem_filter] at hin
  have hown : ∃ t ∈ v.tags, k.isOwned t = true := by
    simpa using hin.2
  have hid := ownedVPCs_of_mem k vpcs v hin.1 hown hcount
  have hrun := useVPC_one k env spec vpcs subnets v.vpcId hv hs hid
  refine ⟨by rw [hrun], ?_⟩
  have hdrop : (k.UseVPC env spec).spec.calls.drop spec.calls.length
      = loopCalls k v.vpcId subnets ++ [ConfigCall.HasSufficientSubnets] := by
    rw [hrun]
    simp only [List.append_assoc]
    rw [List.drop_left]
  rw [hdrop, importCalls_append, loopCalls_eq_flatMap, importCalls_flatMap_subnetCalls,
    importedSubnets_of_single_tags k v.vpcId subnets
      (fun s hs2 => countP_isOwned_le_one k s.tags (hsk s hs2))]
  simp [importCalls]

/-- C1, on the scenario of the spec: cluster `prod`, one owned VPC and one
shared VPC, two owned subnets in the owned VPC (one tagged
`SubnetType=Private`), one shared subnet in it and one owned subnet of the
other VPC; only the first two are imported. -/
theorem C1_useVPC_single_owned_vpc_witness :
    ((prodWrapper
        [⟨"vpc-1", [prodOwned]⟩, ⟨"vpc-2", [⟨"kubernetes.io/cluster/prod", "shared"⟩]⟩]
        [⟨"s-1", "vpc-1", "us-west-2a", [prodOwned, ⟨"SubnetType", "Private"⟩]⟩,
         ⟨"s-2", "vpc-1", "us-west-2b", [prodOwned]⟩,
         ⟨"s-3", "vpc-1", "us-west-2c", [⟨"kubernetes.io/cluster/prod", "shared"⟩]⟩,
         ⟨"s-4", "vpc-2", "us-west-2c", [prodOwned]⟩]).UseVPC envOk emptyConfig).spec.VPC.ID
      = "vpc-1" ∧
    importCalls
        (((prodWrapper
          [⟨"vpc-1", [prodOwned]⟩, ⟨"vpc-2", [⟨"kubernetes.io/cluster/prod", "shared"⟩]⟩]
          [⟨"s-1", "vpc-1", "us-west-2a", [prodOwned, ⟨"SubnetType", "Private"⟩]⟩,
           ⟨"s-2", "vpc-1", "us-west-2b", [prodOwned]⟩,
           ⟨"s-3", "vpc-1", "us-west-2c", [⟨"kubernetes.io/cluster/prod", "shared"⟩]⟩,
           ⟨"s-4", "vpc-2", "us-west-2c", [prodOwned]⟩]).UseVPC
            envOk emptyConfig).spec.calls.drop emptyConfig.calls.length)
      = [.ImportSubnet .Private "us-west-2a" "s-1", .ImportSubnet .Public "us-west-2b" "s-2"] :=
  have h := C1_useVPC_single_owned_vpc
    (prodWrapper
      [⟨"vpc-1", [prodOwned]⟩, ⟨"vpc-2", [⟨"kubernetes.io/cluster/prod", "shared"⟩]⟩]
      [⟨"s-1", "vpc-1", "us-west-2a", [prodOwned, ⟨"SubnetType", "Private"⟩]⟩,
       ⟨"s-2", "vpc-1", "us-west-2b", [prodOwned]⟩,
       ⟨"s-3", "vpc-1", "us-west-2c", [⟨"kubernetes.io/cluster/prod", "shared"⟩]⟩,
       ⟨"s-4", "vpc-2", "us-west-2c", [prodOwned]⟩])
    envOk emptyConfig
    [⟨"vpc-1", [prodOwned]⟩, ⟨"vpc-2", [⟨"kubernetes.io/cluster/prod", "shared"⟩]⟩]
    [⟨"s-1", "vpc-1", "us-west-2a", [prodOwned, ⟨"SubnetType", "Private"⟩]⟩,
     ⟨"s-2", "vpc-1", "us-west-2b", [prodOwned]⟩,
     ⟨"s-3", "vpc-1", "us-west-2c", [⟨"kubernetes.io/cluster/prod", "shared"⟩]⟩,
     ⟨"s-4", "vpc-2", "us-west-2c", [prodOwned]⟩]
    ⟨"vpc-1", [prodOwned]⟩ rfl rfl
    (by unfold uniqueKeys; decide) (by unfold uniqueKeys; decide) (by decide)
  ⟨h.1, h.2.trans (by decide)⟩

/-- C2: on an empty VPC listing (no owned VPC), with any cluster name and any
subnet listing, `UseVPC` does not return an error value: the run ends in the
index-out-of-range panic of `vpcs[0]`, the configuration untouched. -/
theorem C2_useVPC_empty_listing_panics (name : String) (subnets : List Subnet)
    (env : Env) (spec : ClusterConfig) :
    (Wrapper.mk name (cloudOf [] subnets)).UseVPC env spec
      = ⟨.panicked, spec, [.ListVPCs name, .ListSubnets name]⟩ ∧
    (prodWrapper [⟨"vpc-1", [⟨"kubernetes.io/cluster/prod", "shared"⟩]⟩] []).UseVPC
        envOk emptyConfig
      = ⟨.panicked, emptyConfig, [.ListVPCs "prod", .ListSubnets "prod"]⟩ :=
  ⟨useVPC_none (Wrapper.mk name (cloudOf [] subnets)) env spec [] subnets rfl rfl rfl,
   by decide⟩

/-! ### The `%q` verb of the Go library -/

/-- What `strconv.Quote` writes for one character: the double quote and the
backslash always get a backslash in front, a printable character is written
as it is, and any other character is written as its escape. `isPrint` stands
for `strconv.IsPrint` and `escape` for the escape sequence of a character that
is not printable; both are tables of the Go library. -/
def quoteChar (isPrint : Char → Bool) (escape : Char → String) (c : Char) : String :=
  if c == Char.ofNat 34 || c == Char.ofNat 92 then "\\" ++ c.toString
  else if isPrint c then c.toString
  else escape c

/-- The loop of `strconv.Quote` over the characters of the string. -/
def quoteChars (isPrint : Char → Bool) (escape : Char → String) : List Char → String
  | [] => ""
  | c :: cs => quoteChar isPrint escape c ++ quoteChars isPrint escape cs

/-- The `%q` verb of `fmt` on a string, `strconv.Quote`: the quoted characters
between two double quotes. -/
def goQuote (isPrint : Char → Bool) (escape : Char → String) (s : String) : String :=
  "\"" ++ quoteChars isPrint escape s.data ++ "\""

/-- The table `strconv.IsPrint` on ASCII: from the blank to the tilde. -/
def asciiPrint (c : Char) : Bool := 32 ≤ c.toNat && c.toNat ≤ 126

/-- The hexadecimal digit of the low four bits of `n`, in lower case. -/
def lowerhex (n : Nat) : String :=
  ("0123456789abcdef".data.getD (n % 16) (Char.ofNat 48)).toString

/-- The escape sequences of `strconv.Quote`: the named escapes, two
hexadecimal digits for the other control characters, four or eight for the
rest. -/
def asciiEscape (c : Char) : String :=
  if c.toNat == 7 then "\\a"
  else if c.toNat == 8 then "\\b"
  else if c.toNat == 12 then "\\f"
  else if c.toNat == 10 then "\\n"
  else if c.toNat == 13 then "\\r"
  else if c.toNat == 9 then "\\t"
  else if c.toNat == 11 then "\\v"
  else if c.toNat < 32 || c.toNat == 127 then
    "\\x" ++ lowerhex (c.toNat / 16) ++ lowerhex c.toNat
  else if c.toNat < 65536 then
    "\\u" ++ lowerhex (c.toNat / 4096) ++ lowerhex (c.toNat / 256)
      ++ lowerhex (c.toNat / 16) ++ lowerhex c.toNat
  else
    "\\U" ++ lowerhex (c.toNat / 268435456) ++ lowerhex (c.toNat / 16777216)
      ++ lowerhex (c.toNat / 1048576) ++ lowerhex (c.toNat / 65536)
      ++ lowerhex (c.toNat / 4096) ++ lowerhex (c.toNat / 256)
      ++ lowerhex (c.toNat / 16) ++ lowerhex c.toNat

/-- The `%q` verb on ASCII strings. A character outside ASCII is escaped here,
whereas `%q` keeps the printable ones; the runs below use ASCII names only. -/
def asciiQuote (s : String) : String := goQuote asciiPrint asciiEscape s

/-- An environment with the `%q` verb on ASCII strings, whose validation
always succeeds. -/
def envAscii : Env := ⟨asciiQuote, fun _ => none⟩

theorem containsStr_iff (s t : String) : containsStr s t ↔ t.data <:+: s.data := by
  constructor
  · rintro ⟨a, b, h⟩
    refine ⟨a.data, b.data, ?_⟩
    rw [h]
    simp [String.data_append]
  · rintro ⟨a, b, h⟩
    refine ⟨⟨a⟩, ⟨b⟩, ?_⟩
    apply String.ext
    simp [String.data_append, ← h]

theorem quoteChars_plain (isPrint : Char → Bool) (escape : Char → String) (cs : List Char)
    (h : ∀ c ∈ cs, c ≠ Char.ofNat 34 ∧ c ≠ Char.ofNat 92 ∧ isPrint c = true) :
    quoteChars isPrint escape cs = ⟨cs⟩ := by
  induction cs with
  | nil => rfl
  | cons c cs ih =>
    have hc := h c (List.mem_cons_self _ _)
    have ih2 := ih (fun x hx => h x (List.mem_cons_of_mem _ hx))
    unfold quoteChars
    rw [ih2]
    have hq : quoteChar isPrint escape c = c.toString := by
      simp [quoteChar, hc.1, hc.2.1, hc.2.2]
    rw [hq]
    apply String.ext
    simp [String.data_append, Char.toString, String.singleton, String.push]

theorem goQuote_plain (isPrint : Char → Bool) (escape : Char → String) (s : String)
    (h : ∀ c ∈ s.data, c ≠ Char.ofNat 34 ∧ c ≠ Char.ofNat 92 ∧ isPrint c = true) :
    goQuote isPrint escape s = "\"" ++ s ++ "\"" := by
  unfold goQuote
  rw [quoteChars_plain isPrint escape s.data h]

/-- C3, as stated, fails for a cluster name that `%q` escapes. The cluster is
named `a"b\c` and two listed VPCs carry its owned tag: `UseVPC` returns the
ambiguity error, whose message ends in the quoted name `"a\"b\\c"` and does not
contain the cluster name. -/
theorem C3_counterexample :
    ((Wrapper.mk "a\"b\\c"
        (cloudOf [⟨"vpc-1", [⟨"kubernetes.io/cluster/a\"b\\c", "owned"⟩]⟩,
                  ⟨"vpc-2", [⟨"kubernetes.io/cluster/a\"b\\c", "owned"⟩]⟩] [])).UseVPC
        envAscii emptyConfig).outcome
      = .returned (some (.errorf
          "more then one VPC found for kops cluster \"a\\\"b\\\\c\"")) ∧
    ¬ containsStr
        (GoError.errorf "more then one VPC found for kops cluster \"a\\\"b\\\\c\"").Error
        "a\"b\\c" := by
  refine ⟨by decide, ?_⟩
  rw [containsStr_iff]
  decide

/-- C3, amended: when both listings succeed and two or more listed VPCs carry
the owned tag, `UseVPC` returns a non-nil error, built by `fmt.Errorf`, whose
message is `more then one VPC found for kops cluster ` followed by the cluster
name as the `%q` verb writes it, and the configuration is left as it was. With
the `%q` verb of Go, the message contains the cluster name itself whenever the
name has no double quote, no backslash and no character that is not
printable. -/
theorem C3_useVPC_ambiguous (k : Wrapper) (env : Env) (spec : ClusterConfig)
    (vpcs : List Vpc) (subnets : List Subnet)
    (hv : k.cloud.ListVPCs k.clusterName = .ok vpcs)
    (hs : k.cloud.ListSubnets k.clusterName = .ok subnets)
    (h2 : 2 ≤ (ownedVpcList k vpcs).length) :
    ∃ e : GoError,
      (k.UseVPC env spec).outcome = .returned (some e) ∧
      e = .errorf ("more then one VPC found for kops cluster " ++ env.quote k.clusterName) ∧
      e.Error = "more then one VPC found for kops cluster " ++ env.quote k.clusterName ∧
      (k.UseVPC env spec).spec = spec ∧
      (∀ (isPrint : Char → Bool) (escape : Char → String),
        env.quote = goQuote isPrint escape →
        (∀ c ∈ k.clusterName.data,
          c ≠ Char.ofNat 34 ∧ c ≠ Char.ofNat 92 ∧ isPrint c = true) →
        e.Error = "more then one VPC found for kops cluster \"" ++ k.clusterName ++ "\"" ∧
        containsStr e.Error k.clusterName) := by
  have hle := length_ownedVpcList_le k vpcs
  have hrun := useVPC_many k env spec vpcs subnets hv hs (by omega)
  refine ⟨_, by rw [hrun], rfl, rfl, by rw [hrun], ?_⟩
  intro isPrint escape hq hplain
  have hmsg : (GoError.errorf
      ("more then one VPC found for kops cluster " ++ env.quote k.clusterName)).Error
      = "more then one VPC found for kops cluster \"" ++ k.clusterName ++ "\"" := by
    simp only [GoError.Error]
    rw [hq, goQuote_plain isPrint escape k.clusterName hplain]
    apply String.ext
    simp [String.data_append]
  refine ⟨hmsg, ?_⟩
  rw [hmsg]
  exact ⟨"more then one VPC found for kops cluster \"", "\"", rfl⟩

/-- C3, amended, on two owned VPCs of cluster `prod`: the error message names
`prod`. -/
theorem C3_useVPC_ambiguous_witness :
    ∃ e : GoError,
      ((prodWrapper [⟨"vpc-1", [prodOwned]⟩, ⟨"vpc-2", [prodOwned]⟩] []).UseVPC
        envAscii emptyConfig).outcome = .returned (some e) ∧
      e.Error = "more then one VPC found for kops cluster \"prod\"" ∧
      containsStr e.Error "prod" :=
  have h := C3_useVPC_ambiguous
    (prodWrapper [⟨"vpc-1", [prodOwned]⟩, ⟨"vpc-2", [prodOwned]⟩] []) envAscii emptyConfig
    [⟨"vpc-1", [prodOwned]⟩, ⟨"vpc-2", [prodOwned]⟩] [] rfl rfl (by decide)
  h.elim fun e he =>
    ⟨e, he.1,
      (he.2.2.2.2 asciiPrint asciiEscape rfl (by decide)).1.trans (by decide),
      (he.2.2.2.2 asciiPrint asciiEscape rfl (by decide)).2⟩

/-- C6: in a run that gets past the VPC selection (both listings succeed and
`vpcs` is the one ID `id`), `HasSufficientSubnets` is called once, as the last
call, on the configuration the subnet loop produced. If it returns an error
`e`, `UseVPC` returns the error wrapped around `e`, whose message is
`using VPC from kops cluster `, the quoted cluster name, a colon, a blank and
the message of `e`, and whose cause is `e`; if it returns nil, so does
`UseVPC`. -/
theorem C6_useVPC_validation (k : Wrapper) (env : Env) (spec : ClusterConfig)
    (vpcs : List Vpc) (subnets : List Subnet) (id : String)
    (hv : k.cloud.ListVPCs k.clusterName = .ok vpcs)
    (hs : k.cloud.ListSubnets k.clusterName = .ok subnets)
    (hid : k.ownedVPCs vpcs = [id]) :
    (∃ loop : List ConfigCall,
      (k.importSubnets subnets ⟨⟨id⟩, spec.calls⟩).calls = spec.calls ++ loop ∧
      ConfigCall.HasSufficientSubnets ∉ loop ∧
      (k.UseVPC env spec).spec.calls
        = spec.calls ++ loop ++ [ConfigCall.HasSufficientSubnets]) ∧
    (∀ e : GoError,
      env.HasSufficientSubnets (k.importSubnets subnets ⟨⟨id⟩, spec.calls⟩) = some e →
      ∃ w : GoError,
        (k.UseVPC env spec).outcome = .returned (some w) ∧
        w.Error = "using VPC from kops cluster " ++ env.quote k.clusterName ++ ": " ++ e.Error ∧
        w.Cause = some e) ∧
    (env.HasSufficientSubnets (k.importSubnets subnets ⟨⟨id⟩, spec.calls⟩) = none →
      (k.UseVPC env spec).outcome = .returned none) := by
  have hrun := useVPC_one k env spec vpcs subnets id hv hs hid
  have himp : k.importSubnets subnets ⟨⟨id⟩, spec.calls⟩ = importedConfig k id subnets spec := by
    rw [importSubnets_eq]
    rfl
  rw [himp]
  refine ⟨⟨loopCalls k id subnets, rfl, hasSufficientSubnets_not_mem_loopCalls k id subnets,
    by rw [hrun]⟩, ?_, ?_⟩
  · intro e he
    refine ⟨.wrapf e ("using VPC from kops cluster " ++ env.quote k.clusterName), ?_, rfl, rfl⟩
    rw [hrun, he]
    rfl
  · intro hn
    rw [hrun, hn]
    rfl

/-- C6, on a run of cluster `prod` whose validation fails. -/
theorem C6_useVPC_validation_witness :
    ∃ w : GoError,
      ((prodWrapper [⟨"vpc-1", [prodOwned]⟩]
        [⟨"s-1", "vpc-1", "us-west-2a", [prodOwned]⟩]).UseVPC envFail emptyConfig).outcome
        = .returned (some w) ∧
      w.Error = "using VPC from kops cluster \"prod\": insufficient subnets" ∧
      w.Cause = some (.provider "insufficient subnets") :=
  have h := (C6_useVPC_validation
    (prodWrapper [⟨"vpc-1", [prodOwned]⟩] [⟨"s-1", "vpc-1", "us-west-2a", [prodOwned]⟩])
    envFail emptyConfig [⟨"vpc-1", [prodOwned]⟩]
    [⟨"s-1", "vpc-1", "us-west-2a", [prodOwned]⟩] "vpc-1" rfl rfl (by decide)).2.1
    (.provider "insufficient subnets") rfl
  h.elim fun w hw => ⟨w, hw.1, hw.2.1.trans (by decide), hw.2.2⟩

/-- C7: if the VPC listing fails with `e`, `UseVPC` returns `e` itself, the
subnet listing is not requested and the configuration is untouched; if the VPC
listing succeeds, whatever it holds, and the subnet listing fails with `e`,
`UseVPC` returns `e` itself and the configuration is untouched. -/
theorem C7_useVPC_listing_errors (k : Wrapper) (env : Env) (spec : ClusterConfig) :
    (∀ e : GoError, k.cloud.ListVPCs k.clusterName = .error e →
      k.UseVPC env spec = ⟨.returned (some e), spec, [.ListVPCs k.clusterName]⟩) ∧
    (∀ (vpcs : List Vpc) (e : GoError),
      k.cloud.ListVPCs k.clusterName = .ok vpcs →
      k.cloud.ListSubnets k.clusterName = .error e →
      k.UseVPC env spec
        = ⟨.returned (some e), spec,
            [.ListVPCs k.clusterName, .ListSubnets k.clusterName]⟩) :=
  ⟨fun e hv => useVPC_listVPCs_error k env spec e hv,
   fun vpcs e hv hs => useVPC_listSubnets_error k env spec vpcs e hv hs⟩

/-- C7, on a cloud whose VPC listing fails, and on a cloud whose VPC listing
holds no owned VPC and whose subnet listing fails. -/
theorem C7_useVPC_listing_errors_witness :
    (Wrapper.mk "prod" ⟨fun _ => .error (.provider "denied"), fun _ => .ok []⟩).UseVPC
        envOk emptyConfig
      = ⟨.returned (some (.provider "denied")), emptyConfig, [.ListVPCs "prod"]⟩ ∧
    (Wrapper.mk "prod" ⟨fun _ => .ok [], fun _ => .error (.provider "throttled")⟩).UseVPC
        envOk emptyConfig
      = ⟨.returned (some (.provider "throttled")), emptyConfig,
          [.ListVPCs "prod", .ListSubnets "prod"]⟩ :=
  ⟨(C7_useVPC_listing_errors
      (Wrapper.mk "prod" ⟨fun _ => .error (.provider "denied"), fun _ => .ok []⟩)
      envOk emptyConfig).1 (.provider "denied") rfl,
   (C7_useVPC_listing_errors
      (Wrapper.mk "prod" ⟨fun _ => .ok [], fun _ => .error (.provider "throttled")⟩)
      envOk emptyConfig).2 [] (.provider "throttled") rfl rfl⟩

/-- C8: in a run that reaches the subnet loop (both listings succeed and
`vpcs` is the one ID `id`), the calls added to the configuration are, for each
imported subnet in listing order, `ImportSubnet` directly followed by
`AppendAvailabilityZone` with the zone of that same subnet, and then the
validation call. So the zones appended are the zones of the imported subnets,
in the same order, and a zone is appended as many times as there are imported
subnets in it: nothing is deduplicated. -/
theorem C8_useVPC_zones (k : Wrapper) (env : Env) (spec : ClusterConfig)
    (vpcs : List Vpc) (subnets : List Subnet) (id : String)
    (hv : k.cloud.ListVPCs k.clusterName = .ok vpcs)
    (hs : k.cloud.ListSubnets k.clusterName = .ok subnets)
    (hid : k.ownedVPCs vpcs = [id]) :
    (k.UseVPC env spec).spec.calls
      = spec.calls ++
        (importedSubnets k id subnets).flatMap (fun s =>
          [ConfigCall.ImportSubnet (k.topologyOf s) s.availabilityZone s.subnetId,
           ConfigCall.AppendAvailabilityZone s.availabilityZone]) ++
        [ConfigCall.HasSufficientSubnets] ∧
    appendedZones ((k.UseVPC env spec).spec.calls.drop spec.calls.length)
      = (importedSubnets k id subnets).map (fun s => s.availabilityZone) ∧
    appendedZones ((k.UseVPC env spec).spec.calls.drop spec.calls.length)
      = importedZones ((k.UseVPC env spec).spec.calls.drop spec.calls.length) ∧
    (∀ z : String,
      (appendedZones ((k.UseVPC env spec).spec.calls.drop spec.calls.length)).count z
        = (importedSubnets k id subnets).countP (fun s => s.availabilityZone == z)) := by
  have hrun := useVPC_one k env spec vpcs subnets id hv hs hid
  have hcalls : (k.UseVPC env spec).spec.calls
      = spec.calls ++ ((importedSubnets k id subnets).flatMap (subnetCalls k) ++
        [ConfigCall.HasSufficientSubnets]) := by
    rw [hrun, ← loopCalls_eq_flatMap]
    simp
  have hdrop : (k.UseVPC env spec).spec.calls.drop spec.calls.length
      = (importedSubnets k id subnets).flatMap (subnetCalls k) ++
        [ConfigCall.HasSufficientSubnets] := by
    rw [hcalls, List.drop_left]
  have hz : appendedZones ((k.UseVPC env spec).spec.calls.drop spec.calls.length)
      = (importedSubnets k id subnets).map (fun s => s.availabilityZone) := by
    rw [hdrop]
    have happ : ∀ a b, appendedZones (a ++ b) = appendedZones a ++ appendedZones b := by
      intro a b
      simp [appendedZones]
    rw [happ, appendedZones_flatMap_subnetCalls]
    simp [appendedZones]
  have hi : importedZones ((k.UseVPC env spec).spec.calls.drop spec.calls.length)
      = (importedSubnets k id subnets).map (fun s => s.availabilityZone) := by
    rw [hdrop]
    have happ : ∀ a b, importedZones (a ++ b) = importedZones a ++ importedZones b := by
      intro a b
      simp [importedZones]
    rw [happ, importedZones_flatMap_subnetCalls]
    simp [importedZones]
  refine ⟨?_, hz, hz.trans hi.symm, ?_⟩
  · rw [hcalls]
    simp only [List.append_assoc]
    rfl
  · intro z
    rw [hz, List.count_eq_countP, List.countP_map]
    rfl

/-- C8, on two owned subnets of the chosen VPC that share a zone: the zone is
appended twice. -/
theorem C8_useVPC_zones_witness :
    ((prodWrapper [⟨"vpc-1", [prodOwned]⟩]
        [⟨"s-1", "vpc-1", "us-west-2a", [prodOwned]⟩,
         ⟨"s-2", "vpc-1", "us-west-2a", [prodOwned]⟩]).UseVPC envOk emptyConfig).spec.calls
      = [.ImportSubnet .Public "us-west-2a" "s-1", .AppendAvailabilityZone "us-west-2a",
         .ImportSubnet .Public "us-west-2a" "s-2", .AppendAvailabilityZone "us-west-2a",
         .HasSufficientSubnets] :=
  (C8_useVPC_zones
    (prodWrapper [⟨"vpc-1", [prodOwned]⟩]
      [⟨"s-1", "vpc-1", "us-west-2a", [prodOwned]⟩,
       ⟨"s-2", "vpc-1", "us-west-2a", [prodOwned]⟩])
    envOk emptyConfig [⟨"vpc-1", [prodOwned]⟩]
    [⟨"s-1", "vpc-1", "us-west-2a", [prodOwned]⟩,
     ⟨"s-2", "vpc-1", "us-west-2a", [prodOwned]⟩] "vpc-1" rfl rfl (by decide)).1.trans
    (by decide)

/-- C9: when both listings succeed, `UseVPC` returns the
`more then one VPC found` error exactly when the number of tags satisfying
`isOwned`, summed over the listed VPCs, is greater than one. So a listing of a
single VPC with two such tags is rejected; and when one ID `id` is chosen, a
subnet of that VPC is imported, and its zone appended, once per owned tag it
carries. -/
theorem C9_useVPC_counts_tags (k : Wrapper) (env : Env) (spec : ClusterConfig)
    (vpcs : List Vpc) (subnets : List Subnet)
    (hv : k.cloud.ListVPCs k.clusterName = .ok vpcs)
    (hs : k.cloud.ListSubnets k.clusterName = .ok subnets) :
    ((k.UseVPC env spec).outcome
        = .returned (some (.errorf
            ("more then one VPC found for kops cluster " ++ env.quote k.clusterName)))
      ↔ 1 < ownedTagCount k vpcs) ∧
    (∀ v : Vpc, vpcs = [v] → v.tags.countP k.isOwned = 2 →
      (k.UseVPC env spec).outcome
        = .returned (some (.errorf
            ("more then one VPC found for kops cluster " ++ env.quote k.clusterName)))) ∧
    (∀ id : String, k.ownedVPCs vpcs = [id] →
      (k.UseVPC env spec).spec.calls
        = spec.calls ++
          subnets.flatMap (fun s =>
            if s.vpcId == id then
              (List.replicate (s.tags.countP k.isOwned)
                [ConfigCall.ImportSubnet (k.topologyOf s) s.availabilityZone s.subnetId,
                 ConfigCall.AppendAvailabilityZone s.availabilityZone]).flatten
            else []) ++
          [ConfigCall.HasSufficientSubnets]) := by
  have hmany : 1 < ownedTagCount k vpcs →
      (k.UseVPC env spec).outcome
        = .returned (some (.errorf
            ("more then one VPC found for kops cluster " ++ env.quote k.clusterName))) := by
    intro hc
    rw [useVPC_many k env spec vpcs subnets hv hs hc]
  refine ⟨⟨?_, hmany⟩, ?_, ?_⟩
  · intro hout
    by_contra hnot
    have hcases : ownedTagCount k vpcs = 0 ∨ ownedTagCount k vpcs = 1 := by omega
    cases hcases with
    | inl h0 =>
      rw [useVPC_none k env spec vpcs subnets hv hs h0] at hout
      simp at hout
    | inr h1 =>
      obtain ⟨id, hid⟩ := ownedVPCs_of_count_one k vpcs h1
      rw [useVPC_one k env spec vpcs subnets id hv hs hid] at hout
      cases hh : env.HasSufficientSubnets (importedConfig k id subnets spec) <;>
        simp [hh] at hout
  · intro v hvs h2
    apply hmany
    subst hvs
    simp [ownedTagCount, h2]
  · intro id hid
    rw [useVPC_one k env spec vpcs subnets id hv hs hid]
    rfl

/-- C9, on a single VPC carrying the owned tag of `prod` twice. -/
theorem C9_useVPC_counts_tags_witness :
    ((prodWrapper [⟨"vpc-1", [prodOwned, prodOwned]⟩] []).UseVPC envOk emptyConfig).outcome
      = .returned (some (.errorf "more then one VPC found for kops cluster \"prod\"")) :=
  (C9_useVPC_counts_tags (prodWrapper [⟨"vpc-1", [prodOwned, prodOwned]⟩] [])
    envOk emptyConfig [⟨"vpc-1", [prodOwned, prodOwned]⟩] [] rfl rfl).2.1
    ⟨"vpc-1", [prodOwned, prodOwned]⟩ rfl (by decide)

/-- C10: when a listing fails, or when both succeed and more than one owned tag
is counted, `UseVPC` returns the error and the configuration is exactly as on
entry: `VPC.ID` not written, no call made. When the run gets past the VPC
selection with the ID `id` and `HasSufficientSubnets` returns an error `e`,
`UseVPC` returns the wrapped error and nothing is rolled back: `VPC.ID` is
`id` and every import and zone append of the loop is among the calls. -/
theorem C10_useVPC_config_on_error (k : Wrapper) (env : Env) (spec : ClusterConfig) :
    (∀ e : GoError, k.cloud.ListVPCs k.clusterName = .error e →
      (k.UseVPC env spec).outcome = .returned (some e) ∧ (k.UseVPC env spec).spec = spec) ∧
    (∀ (vpcs : List Vpc) (e : GoError),
      k.cloud.ListVPCs k.clusterName = .ok vpcs →
      k.cloud.ListSubnets k.clusterName = .error e →
      (k.UseVPC env spec).outcome = .returned (some e) ∧ (k.UseVPC env spec).spec = spec) ∧
    (∀ (vpcs : List Vpc) (subnets : List Subnet),
      k.cloud.ListVPCs k.clusterName = .ok vpcs →
      k.cloud.ListSubnets k.clusterName = .ok subnets →
      1 < (k.ownedVPCs vpcs).length →
      (k.UseVPC env spec).outcome
          = .returned (some (.errorf
              ("more then one VPC found for kops cluster " ++ env.quote k.clusterName))) ∧
        (k.UseVPC env spec).spec = spec) ∧
    (∀ (vpcs : List Vpc) (subnets : List Subnet) (id : String) (e : GoError),
      k.cloud.ListVPCs k.clusterName = .ok vpcs →
      k.cloud.ListSubnets k.clusterName = .ok subnets →
      k.ownedVPCs vpcs = [id] →
      env.HasSufficientSubnets (k.importSubnets subnets ⟨⟨id⟩, spec.calls⟩) = some e →
      (k.UseVPC env spec).outcome
          = .returned (some (.wrapf e
              ("using VPC from kops cluster " ++ env.quote k.clusterName))) ∧
        (k.UseVPC env spec).spec.VPC.ID = id ∧
        (k.UseVPC env spec).spec.calls
          = (k.importSubnets subnets ⟨⟨id⟩, spec.calls⟩).calls ++
            [ConfigCall.HasSufficientSubnets] ∧
        (∀ s ∈ subnets, s.vpcId = id → (∃ t ∈ s.tags, k.isOwned t = true) →
          ConfigCall.ImportSubnet (k.topologyOf s) s.availabilityZone s.subnetId
              ∈ (k.UseVPC env spec).spec.calls ∧
            ConfigCall.AppendAvailabilityZone s.availabilityZone
              ∈ (k.UseVPC env spec).spec.calls)) := by
  refine ⟨?_, ?_, ?_, ?_⟩
  · intro e hv
    rw [useVPC_listVPCs_error k env spec e hv]
    exact ⟨rfl, rfl⟩
  · intro vpcs e hv hs
    rw [useVPC_listSubnets_error k env spec vpcs e hv hs]
    exact ⟨rfl, rfl⟩
  · intro vpcs subnets hv hs hc
    rw [length_ownedVPCs] at hc
    rw [useVPC_many k env spec vpcs subnets hv hs hc]
    exact ⟨rfl, rfl⟩
  · intro vpcs subnets id e hv hs hid he
    have himp : k.importSubnets subnets ⟨⟨id⟩, spec.calls⟩
        = importedConfig k id subnets spec := by
      rw [importSubnets_eq]
      rfl
    rw [himp] at he
    rw [himp, useVPC_one k env spec vpcs subnets id hv hs hid, he]
    refine ⟨rfl, rfl, rfl, ?_⟩
    intro s hsmem hsid hown
    have hin : s ∈ importedSubnets k id subnets := by
      unfold importedSubnets
      rw [List.mem_flatMap]
      refine ⟨s, hsmem, ?_⟩
      have hpos : 0 < s.tags.countP k.isOwned := List.countP_pos_iff.mpr hown
      have hb : (s.vpcId == id) = true := by simp [hsid]
      rw [if_pos hb, List.mem_replicate]
      exact ⟨by omega, rfl⟩
    have hloop : ∀ c ∈ subnetCalls k s, c ∈ loopCalls k id subnets := by
      intro c hc
      rw [loopCalls_eq_flatMap, List.mem_flatMap]
      exact ⟨s, hin, hc⟩
    constructor
    · simp only [importedConfig, List.mem_append]
      exact Or.inl (Or.inr (hloop _ (by simp [subnetCalls])))
    · simp only [importedConfig, List.mem_append]
      exact Or.inl (Or.inr (hloop _ (by simp [subnetCalls])))

/-- C10, on a run of cluster `prod` whose validation fails: the configuration
keeps the VPC ID and the calls of the loop. -/
theorem C10_useVPC_config_on_error_witness :
    ((prodWrapper [⟨"vpc-1", [prodOwned]⟩]
        [⟨"s-1", "vpc-1", "us-west-2a", [prodOwned]⟩]).UseVPC envFail emptyConfig).spec.VPC.ID
      = "vpc-1" ∧
    ((prodWrapper [⟨"vpc-1", [prodOwned]⟩]
        [⟨"s-1", "vpc-1", "us-west-2a", [prodOwned]⟩]).UseVPC envFail emptyConfig).spec.calls
      = [.ImportSubnet .Public "us-west-2a" "s-1", .AppendAvailabilityZone "us-west-2a",
         .HasSufficientSubnets] ∧
    ((prodWrapper [⟨"vpc-1", [prodOwned]⟩, ⟨"vpc-2", [prodOwned]⟩]
        [⟨"s-1", "vpc-1", "us-west-2a", [prodOwned]⟩]).UseVPC envFail emptyConfig).spec
      = emptyConfig :=
  have h := (C10_useVPC_config_on_error
    (prodWrapper [⟨"vpc-1", [prodOwned]⟩] [⟨"s-1", "vpc-1", "us-west-2a", [prodOwned]⟩])
    envFail emptyConfig).2.2.2 [⟨"vpc-1", [prodOwned]⟩]
    [⟨"s-1", "vpc-1", "us-west-2a", [prodOwned]⟩] "vpc-1" (.provider "insufficient subnets")
    rfl rfl (by decide) rfl
  have h2 := (C10_useVPC_config_on_error
    (prodWrapper [⟨"vpc-1", [prodOwned]⟩, ⟨"vpc-2", [prodOwned]⟩]
      [⟨"s-1", "vpc-1", "us-west-2a", [prodOwned]⟩])
    envFail emptyConfig).2.2.1 [⟨"vpc-1", [prodOwned]⟩, ⟨"vpc-2", [prodOwned]⟩]
    [⟨"s-1", "vpc-1", "us-west-2a", [prodOwned]⟩] rfl rfl (by decide)
  ⟨h.2.1, h.2.2.1.trans (by decide), h2.2⟩

end Kops
